import Mathlib

/-! The g_hid composite gadget driver (`src/hid.c`): registry and lifecycle.

A shallow embedding of the control flow of `hid.c`:

* the function registry `hidg_func_list` with `hidg_plat_driver_probe` /
  `hidg_plat_driver_remove`,
* the configuration builder `do_config`,
* the gadget bind `hid_bind` / `hid_unbind`,
* the module start-up `init_my_hid` / `hidg_init`.

Everything the file calls but does not define (the HID transport of `f_hid.c`,
the composite framework, the platform bus, the allocator) is external.  Each
external call is appended to a history `World.trace`, and the value it returns
is read from an environment `Env` as a function of the whole history up to and
including that call, so an external function may answer differently every
time it is called.  Diagnostics (`pr_info`, `dev_err`, `dev_info`) have no
effect on control flow and are left out.
-/

namespace GHid

/-! ## Constants of the kernel headers used by `hid.c` -/

/-- The errno `ENOMEM`. -/
def ENOMEM : Int := 12

/-- The errno `ENODEV`. -/
def ENODEV : Int := 19

/-- Bit `1 << 5` of `bmAttributes`: the configuration supports remote wakeup. -/
def USB_CONFIG_ATT_WAKEUP : Nat := 32

/-- Bit `1 << 6` of `bmAttributes`: the configuration is self powered. -/
def USB_CONFIG_ATT_SELFPOWER : Nat := 64

/-- Descriptor type of an OTG descriptor. -/
def USB_DT_OTG : Nat := 9

/-- OTG attribute bit: session request protocol. -/
def USB_OTG_SRP : Nat := 1

/-- OTG attribute bit: host negotiation protocol. -/
def USB_OTG_HNP : Nat := 2

/-- Slot of the manufacturer string in `strings_dev`. -/
def USB_GADGET_MANUFACTURER_IDX : Nat := 0

/-- Slot of the product string in `strings_dev`. -/
def USB_GADGET_PRODUCT_IDX : Nat := 1

/-- Slot of the serial-number string in `strings_dev`. -/
def USB_GADGET_SERIAL_IDX : Nat := 2

/-- Arithmetic on a C `int`: the result is reduced into `[-2^31, 2^31)`
(the kernel is built with wrapping signed overflow). -/
def wrap_int (x : Int) : Int := (x + 2147483648) % 4294967296 - 2147483648

/-! ## Data model -/

/-- The `struct hidg_func_descriptor`: the description of one HID function. -/
structure hidg_func_descriptor where
  subclass : Nat
  protocol : Nat
  report_length : Nat
  report_desc_length : Nat
  report_desc : List Nat
  deriving DecidableEq, Repr

/-- The `struct hidg_func_node`: one registry entry.  The `list_head` linkage is
the position of the node in the list `World.hidg_func_list`. -/
structure hidg_func_node where
  func : hidg_func_descriptor
  deriving DecidableEq, Repr

/-- One USB descriptor as reached through a `usb_descriptor_header` pointer:
length, type, and the bytes that follow the header. -/
structure usb_descriptor_header where
  bLength : Nat
  bDescriptorType : Nat
  body : List Nat
  deriving DecidableEq, Repr

/-- The fields of `struct usb_configuration` that `hid.c` initialises or
writes.  `descriptors` is the NULL-terminated array the field points to
(`[]` for a NULL pointer). -/
structure usb_configuration where
  label : String
  bConfigurationValue : Nat
  bmAttributes : Nat
  descriptors : List usb_descriptor_header
  deriving DecidableEq, Repr

/-- The fields of `struct usb_device_descriptor` that `hid.c` initialises or
writes. -/
structure usb_device_descriptor where
  bcdUSB : Nat
  bDeviceClass : Nat
  bDeviceSubClass : Nat
  bDeviceProtocol : Nat
  idVendor : Nat
  idProduct : Nat
  iManufacturer : Nat
  iProduct : Nat
  bNumConfigurations : Nat
  deriving DecidableEq, Repr

/-- The `struct usb_string`: a string and the id assigned to it. -/
structure usb_string where
  id : Nat
  s : String
  deriving DecidableEq, Repr

/-- The `struct usb_gadget`, reduced to what `gadget_is_otg` reads. -/
structure usb_gadget where
  is_otg : Bool
  deriving DecidableEq, Repr

/-- The `struct platform_device`, with `dev.platform_data` as an optional
function descriptor (`none` is a NULL pointer). -/
structure platform_device where
  name : String
  id : Int
  platform_data : Option hidg_func_descriptor
  deriving DecidableEq, Repr

/-- The external calls made by `hid.c`, with the arguments that vary.  Pointer
arguments that always denote the same object (`cdev`, the gadget,
`&hidg_driver`, `&hidg_plat_driver`, `&my_hid`, `strings_dev`) are not
recorded.  The `_return` events mark the point where a framework function
that runs a callback of this file hands its status back; they carry the
status the callback produced. -/
inductive Call where
  | hidg_bind_config (c : usb_configuration) (func : hidg_func_descriptor) (index : Int)
  | ghid_setup (funcs : Int)
  | ghid_cleanup
  | usb_string_ids_tab
  | usb_add_config (c : usb_configuration)
  | usb_add_config_return (status : Int)
  | usb_composite_overwrite_options
  | kzalloc
  | kfree
  | platform_device_register
  | platform_device_unregister
  | platform_driver_probe
  | platform_driver_probe_return
  | platform_driver_unregister
  | usb_composite_probe
  | usb_composite_probe_return (status : Int)
  deriving DecidableEq, Repr

/-- The behaviour of everything outside `hid.c`.

* `ret h` is the value returned by the external call that is last in the
  history `h` (a status, or for `kzalloc` the address, `0` being NULL);
* `string_id h i old` is the id that `usb_string_ids_tab`, called last in `h`,
  leaves in slot `i` of the string table when the slot held `old`;
* `devices h` is the list of `"hidg"` platform devices for which the driver
  core runs the probe (resp. remove) callback during the framework call that
  is last in `h`. -/
structure Env where
  ret : List Call → Int
  string_id : List Call → Nat → Nat → Nat
  devices : List Call → List platform_device

/-- The mutable state of the module: its file-scope variables, the gadget
controller reached through `cdev->gadget`, and the history of external
calls. -/
structure World where
  hidg_func_list : List hidg_func_node
  device_desc : usb_device_descriptor
  strings_dev : List usb_string
  config_driver : usb_configuration
  gadget : usb_gadget
  trace : List Call

/-- Perform the external call `k`: record it and read its result. -/
def env_call (env : Env) (k : Call) (w : World) : Int × World :=
  (env.ret (w.trace ++ [k]), { w with trace := w.trace ++ [k] })

/-! ## Static data -/

/-- The static `otg_descriptor`. -/
def otg_descriptor : usb_descriptor_header :=
  { bLength := 3, bDescriptorType := USB_DT_OTG, body := [USB_OTG_SRP ||| USB_OTG_HNP] }

/-- The static `otg_desc`: the OTG descriptor set. -/
def otg_desc : List usb_descriptor_header := [otg_descriptor]

/-- The initial value of the static `config_driver`. -/
def config_driver : usb_configuration :=
  { label := "HID Gadget", bConfigurationValue := 1,
    bmAttributes := USB_CONFIG_ATT_SELFPOWER, descriptors := [] }

/-- The initial value of the static `device_desc`. -/
def device_desc : usb_device_descriptor :=
  { bcdUSB := 0x0200, bDeviceClass := 0, bDeviceSubClass := 0, bDeviceProtocol := 0,
    idVendor := 0x0525, idProduct := 0xa4ac, iManufacturer := 0, iProduct := 0,
    bNumConfigurations := 1 }

/-- The initial value of the static `strings_dev`. -/
def strings_dev : List usb_string :=
  [{ id := 0, s := "" }, { id := 0, s := "HID Gadget" }, { id := 0, s := "" }]

/-- The static `my_hid_data`: the built-in keyboard function. -/
def my_hid_data : hidg_func_descriptor :=
  { subclass := 0, protocol := 1, report_length := 8, report_desc_length := 63,
    report_desc :=
      [0x05, 0x01, 0x09, 0x06, 0xa1, 0x01, 0x05, 0x07, 0x19, 0xe0, 0x29, 0xe7,
       0x15, 0x00, 0x25, 0x01, 0x75, 0x01, 0x95, 0x08, 0x81, 0x02, 0x95, 0x01,
       0x75, 0x08, 0x81, 0x03, 0x95, 0x05, 0x75, 0x01, 0x05, 0x08, 0x19, 0x01,
       0x29, 0x05, 0x91, 0x02, 0x95, 0x01, 0x75, 0x03, 0x91, 0x03, 0x95, 0x06,
       0x75, 0x08, 0x15, 0x00, 0x25, 0x65, 0x05, 0x07, 0x19, 0x00, 0x29, 0x65,
       0x81, 0x00, 0xc0] }

/-- The static `my_hid`: the platform device carrying `my_hid_data`. -/
def my_hid : platform_device :=
  { name := "hidg", id := 0, platform_data := some my_hid_data }

/-- The module state before `hidg_init` runs, on the gadget `g`. -/
def initial_world (g : usb_gadget) : World :=
  { hidg_func_list := [], device_desc := device_desc, strings_dev := strings_dev,
    config_driver := config_driver, gadget := g, trace := [] }

/-! ## Configurations -/

/-- The helper `gadget_is_otg`. -/
def gadget_is_otg (g : usb_gadget) : Bool := g.is_otg

/-- The `list_for_each_entry` loop of `do_config`: bind each entry with the
running index `func`, post-incremented at each call, and stop at the first
nonzero status. -/
def do_config_loop (env : Env) (c : usb_configuration) :
    List hidg_func_node → Int → Int → World → Int × World
  | [], _, status, w => (status, w)
  | e :: rest, func, _, w =>
    let r := env_call env (Call.hidg_bind_config c e.func func) w
    if r.1 ≠ 0 then r else do_config_loop env c rest (wrap_int (func + 1)) r.1 r.2

/-- The function `do_config`, on the configuration `c` it is handed (returned
with the writes made through the pointer).  The gadget `c->cdev->gadget` is
the gadget of the world. -/
def do_config (env : Env) (c : usb_configuration) (w : World) :
    Int × usb_configuration × World :=
  let c1 : usb_configuration :=
    if gadget_is_otg w.gadget then
      { c with descriptors := otg_desc,
               bmAttributes := (c.bmAttributes ||| USB_CONFIG_ATT_WAKEUP) % 256 }
    else c
  let r := do_config_loop env c1 w.hidg_func_list 0 0 w
  (r.1, c1, r.2)

/-! ## Gadget bind -/

/-- The `list_for_each` loop of `hid_bind`: `funcs++` once per entry. -/
def count_funcs : List hidg_func_node → Int → Int
  | [], funcs => funcs
  | _ :: tmp, funcs => count_funcs tmp (wrap_int (funcs + 1))

/-- The framework function `usb_string_ids_tab` applied to `strings_dev`:
external, it returns a status and may write the id of every slot. -/
def usb_string_ids_tab (env : Env) (w : World) : Int × World :=
  let r := env_call env Call.usb_string_ids_tab w
  (r.1, { r.2 with strings_dev :=
            r.2.strings_dev.mapIdx (fun i str => { str with id := env.string_id r.2.trace i str.id }) })

/-- The id stored in slot `i` of the string table. -/
def string_id_at (tab : List usb_string) (i : Nat) : Nat :=
  match tab.get? i with
  | some str => str.id
  | none => 0

/-- The framework function `usb_add_config` applied to `&config_driver`:
external.  It either rejects the configuration with a nonzero status before
running the bind callback, or runs the callback once on the configuration and
then returns a status of its choice. -/
def usb_add_config (env : Env)
    (bind : usb_configuration → World → Int × usb_configuration × World)
    (w : World) : Int × World :=
  let r := env_call env (Call.usb_add_config w.config_driver) w
  if r.1 ≠ 0 then r
  else
    let b := bind r.2.config_driver r.2
    env_call env (Call.usb_add_config_return b.1) { b.2.2 with config_driver := b.2.1 }

/-- The function `hid_bind`. -/
def hid_bind (env : Env) (w : World) : Int × World :=
  let funcs := count_funcs w.hidg_func_list 0
  if funcs = 0 then (-ENODEV, w)
  else
    let r1 := env_call env (Call.ghid_setup funcs) w
    if r1.1 < 0 then r1
    else
      let r2 := usb_string_ids_tab env r1.2
      if r2.1 < 0 then r2
      else
        let w3 : World :=
          { r2.2 with device_desc :=
              { r2.2.device_desc with
                  iManufacturer := string_id_at r2.2.strings_dev USB_GADGET_MANUFACTURER_IDX,
                  iProduct := string_id_at r2.2.strings_dev USB_GADGET_PRODUCT_IDX } }
        let r4 := usb_add_config env (do_config env) w3
        if r4.1 < 0 then r4
        else
          let r5 := env_call env Call.usb_composite_overwrite_options r4.2
          (0, r5.2)

/-- The function `hid_unbind`. -/
def hid_unbind (env : Env) (w : World) : Int × World :=
  let r := env_call env Call.ghid_cleanup w
  (0, r.2)

/-! ## Registry -/

/-- The function `hidg_plat_driver_probe`. -/
def hidg_plat_driver_probe (env : Env) (pdev : platform_device) (w : World) : Int × World :=
  match pdev.platform_data with
  | none => (-ENODEV, w)
  | some func =>
    let r := env_call env Call.kzalloc w
    if r.1 = 0 then (-ENOMEM, r.2)
    else (0, { r.2 with hidg_func_list := r.2.hidg_func_list ++ [{ func := func }] })

/-- The list operation `list_del`: unlink the node `e`. -/
def list_del (e : hidg_func_node) (l : List hidg_func_node) : List hidg_func_node :=
  l.erase e

/-- The `list_for_each_entry_safe` loop of `hidg_plat_driver_remove`: visit
every node `e` (with `n` the saved remainder), unlink it and free it. -/
def hidg_plat_driver_remove_loop (env : Env) : List hidg_func_node → World → World
  | [], w => w
  | e :: n, w =>
    let w1 : World := { w with hidg_func_list := list_del e w.hidg_func_list }
    hidg_plat_driver_remove_loop env n (env_call env Call.kfree w1).2

/-- The function `hidg_plat_driver_remove`; the device `pdev` is not read. -/
def hidg_plat_driver_remove (env : Env) (_pdev : platform_device) (w : World) : Int × World :=
  (0, hidg_plat_driver_remove_loop env w.hidg_func_list w)

/-! ## Module start-up -/

/-- The function `init_my_hid`: register the static platform device. -/
def init_my_hid (env : Env) (w : World) : Int × World :=
  env_call env Call.platform_device_register w

/-- The bus function `platform_driver_probe`: external.  The driver core runs
the probe callback on each matching device, ignoring what it returns, and
then reports a status of its choice. -/
def platform_driver_probe (env : Env) (probe : platform_device → World → Int × World)
    (w : World) : Int × World :=
  let r := env_call env Call.platform_driver_probe w
  let w2 := (env.devices r.2.trace).foldl (fun acc pdev => (probe pdev acc).2) r.2
  env_call env Call.platform_driver_probe_return w2

/-- The bus function `platform_driver_unregister`: external.  The driver core
runs the remove callback on each device bound to the driver. -/
def platform_driver_unregister (env : Env) (remove : platform_device → World → Int × World)
    (w : World) : World :=
  let r := env_call env Call.platform_driver_unregister w
  (env.devices r.2.trace).foldl (fun acc pdev => (remove pdev acc).2) r.2

/-- The framework function `usb_composite_probe`: external.  It either fails
with a nonzero status before running the driver's bind callback, or runs the
callback once and then returns a status of its choice.  It does not run the
driver's unbind callback. -/
def usb_composite_probe (env : Env) (bind : World → Int × World) (w : World) : Int × World :=
  let r := env_call env Call.usb_composite_probe w
  if r.1 ≠ 0 then r
  else
    let b := bind r.2
    env_call env (Call.usb_composite_probe_return b.1) b.2

/-- The function `hidg_init`. -/
def hidg_init (env : Env) (w : World) : Int × World :=
  let r1 := init_my_hid env w
  let r2 := platform_driver_probe env (hidg_plat_driver_probe env) r1.2
  if r2.1 < 0 then
    let r3 := env_call env Call.platform_device_unregister r2.2
    (r2.1, r3.2)
  else
    let r4 := usb_composite_probe env (hid_bind env) r2.2
    if r4.1 < 0 then
      let w5 := platform_driver_unregister env (hidg_plat_driver_remove env) r4.2
      let r6 := env_call env Call.platform_device_unregister w5
      (r4.1, r6.2)
    else r4

/-! ## Vocabulary for stating properties -/

/-- The invocations `hidg_bind_config(c, d, i)` for the descriptors `ds`, in
order, the first with index `start` and each next index one higher. -/
def bind_calls (c : usb_configuration) : List hidg_func_descriptor → Int → List Call
  | [], _ => []
  | d :: ds, start => Call.hidg_bind_config c d start :: bind_calls c ds (start + 1)

/-- Run `hidg_plat_driver_probe` on each device in turn, collecting the
statuses. -/
def probe_all (env : Env) : List platform_device → World → List Int × World
  | [], w => ([], w)
  | p :: ps, w =>
    let r := hidg_plat_driver_probe env p w
    let rs := probe_all env ps r.2
    (r.1 :: rs.1, rs.2)

/-! ## Sample data for concrete runs -/

/-- A second function descriptor (a boot mouse), distinct from `my_hid_data`. -/
def sample_mouse_data : hidg_func_descriptor :=
  { subclass := 1, protocol := 2, report_length := 4, report_desc_length := 4,
    report_desc := [0x05, 0x01, 0x09, 0x02] }

/-- A board-level platform device carrying `sample_mouse_data`. -/
def sample_mouse : platform_device :=
  { name := "hidg", id := 1, platform_data := some sample_mouse_data }

/-- Results of an environment in which every external call succeeds:
allocations return a non-NULL address, frameworks hand back the status of
the callback they ran, everything else returns `0`. -/
def ret_all_ok (h : List Call) : Int :=
  match h.getLast? with
  | some Call.kzalloc => 1
  | some (Call.usb_add_config_return s) => s
  | some (Call.usb_composite_probe_return s) => s
  | _ => 0

/-- An environment in which every external call succeeds and the only
`"hidg"` platform device is `my_hid`. -/
def env_all_ok : Env :=
  { ret := ret_all_ok, string_id := fun _ i _ => i + 1, devices := fun _ => [my_hid] }

/-- Results of an environment in which the transport refuses the function
bound with index `1` (status `-22`) and everything else succeeds. -/
def ret_second_bind_fails (h : List Call) : Int :=
  match h.getLast? with
  | some (Call.hidg_bind_config _ _ 1) => -22
  | _ => ret_all_ok h

/-- An environment in which the bind of the second function fails. -/
def env_second_bind_fails : Env :=
  { env_all_ok with ret := ret_second_bind_fails }

/-- A world whose registry holds the keyboard and the mouse, in that order. -/
def world_two_functions (g : usb_gadget) : World :=
  { initial_world g with
    hidg_func_list := [{ func := my_hid_data }, { func := sample_mouse_data }] }

/-- The calls made while the composite framework runs `hid_bind`: the three
stages of `hid_bind`, the transport binds of `do_config`, and the points
where a framework returns. -/
def Call.is_bind_stage : Call → Bool
  | Call.ghid_setup _ => true
  | Call.usb_string_ids_tab => true
  | Call.usb_add_config _ => true
  | Call.usb_add_config_return _ => true
  | Call.hidg_bind_config _ _ _ => true
  | Call.usb_composite_overwrite_options => true
  | Call.usb_composite_probe_return _ => true
  | _ => false

/-- The second step of `hidg_init`: `platform_driver_probe` run after
`init_my_hid`. -/
def probe_stage (env : Env) (w : World) : Int × World :=
  platform_driver_probe env (hidg_plat_driver_probe env) (init_my_hid env w).2

/-- The third step of `hidg_init`: `usb_composite_probe` run after the
second step. -/
def composite_stage (env : Env) (w : World) : Int × World :=
  usb_composite_probe env (hid_bind env) (probe_stage env w).2

/-- Results of an environment in which `usb_string_ids_tab` fails with
`-ENOMEM` and everything else succeeds. -/
def ret_string_ids_fail (h : List Call) : Int :=
  match h.getLast? with
  | some Call.usb_string_ids_tab => -12
  | _ => ret_all_ok h

/-- An environment in which string-id allocation fails. -/
def env_string_ids_fail : Env :=
  { env_all_ok with ret := ret_string_ids_fail }

/-- Results of an environment in which `usb_add_config` rejects the
configuration with `-22` and everything else succeeds. -/
def ret_add_config_fails (h : List Call) : Int :=
  match h.getLast? with
  | some (Call.usb_add_config _) => -22
  | _ => ret_all_ok h

/-- An environment in which configuration registration fails. -/
def env_add_config_fails : Env :=
  { env_all_ok with ret := ret_add_config_fails }

/-- A world whose registry holds the built-in keyboard only. -/
def world_keyboard (g : usb_gadget) : World :=
  { initial_world g with hidg_func_list := [{ func := my_hid_data }] }

/-- Results of an environment in which `platform_device_register` fails with
`-ENOMEM` and everything else succeeds. -/
def ret_seed_fails (h : List Call) : Int :=
  match h.getLast? with
  | some Call.platform_device_register => -12
  | _ => ret_all_ok h

/-- An environment in which the registration of `my_hid` fails while the
board provides another `"hidg"` device. -/
def env_seed_fails : Env :=
  { ret := ret_seed_fails, string_id := fun _ i _ => i + 1, devices := fun _ => [sample_mouse] }

/-! ## Lemmas -/

/-- Lemma: Incrementing a non-negative C `int` below `INT_MAX` does not wrap. -/
theorem wrap_int_succ (i : Int) (h0 : 0 ≤ i) (h1 : i + 1 < 2147483648) :
    wrap_int (i + 1) = i + 1 := by
  unfold wrap_int
  omega

/-- Lemma: Appending no event leaves the world as it is. -/
theorem world_trace_append_nil (w : World) : { w with trace := w.trace ++ [] } = w := by
  cases w
  simp

/-- Lemma: One expected bind call per descriptor. -/
theorem bind_calls_length (c : usb_configuration) :
    ∀ (ds : List hidg_func_descriptor) (start : Int), (bind_calls c ds start).length = ds.length
  | [], _ => rfl
  | _ :: ds, start => by simp [bind_calls, bind_calls_length c ds (start + 1)]

/-- Lemma: When every bind returns `0` the loop of `do_config` makes exactly the expected calls and ends with status `0`. -/
theorem do_config_loop_ok (env : Env) (c : usb_configuration) :
    ∀ (l : List hidg_func_node) (func : Int) (w : World),
      0 ≤ func → func + l.length < 2147483648 →
      (∀ k, k < l.length →
        env.ret (w.trace ++ (bind_calls c (l.map (fun e => e.func)) func).take (k + 1)) = 0) →
      do_config_loop env c l func 0 w =
        (0, { w with trace := w.trace ++ bind_calls c (l.map (fun e => e.func)) func }) := by
  intro l
  induction l with
  | nil =>
    intro func w _ _ _
    simp [do_config_loop, bind_calls, world_trace_append_nil]
  | cons e rest ih =>
    intro func w h0 h1 h
    have hhead := h 0 (by simp)
    simp only [List.map_cons, bind_calls, List.take_succ_cons, List.take_zero] at hhead
    simp only [List.length_cons, Nat.cast_add, Nat.cast_one] at h1
    have hw : wrap_int (func + 1) = func + 1 := wrap_int_succ func h0 (by omega)
    simp only [do_config_loop, env_call, hhead, ne_eq, not_true_eq_false, if_false, hw]
    rw [ih (func + 1) _ (by omega) (by omega)]
    · simp [bind_calls]
    · intro k hk
      have := h (k + 1) (by simp; omega)
      simpa [bind_calls] using this

/-- Lemma: When the bind of position `k` is the first to return a nonzero status `s`, the loop of `do_config` stops there with status `s`. -/
theorem do_config_loop_fail (env : Env) (c : usb_configuration) (s : Int) (hs : s ≠ 0) :
    ∀ (l : List hidg_func_node) (k : Nat) (func st : Int) (w : World),
      0 ≤ func → func + k < 2147483648 → k < l.length →
      (∀ j, j < k →
        env.ret (w.trace ++ (bind_calls c (l.map (fun e => e.func)) func).take (j + 1)) = 0) →
      env.ret (w.trace ++ (bind_calls c (l.map (fun e => e.func)) func).take (k + 1)) = s →
      do_config_loop env c l func st w =
        (s, { w with
              trace := w.trace ++ (bind_calls c (l.map (fun e => e.func)) func).take (k + 1) }) := by
  intro l
  induction l with
  | nil =>
    intro k func st w _ _ hk
    simp at hk
  | cons e rest ih =>
    intro k func st w h0 h1 hk hok hfail
    cases k with
    | zero =>
      simp only [List.map_cons, bind_calls, List.take_succ_cons, List.take_zero, zero_add] at hfail
      simp [do_config_loop, env_call, hfail, hs, bind_calls]
    | succ k =>
      have hhead := hok 0 (by omega)
      simp only [List.map_cons, bind_calls, List.take_succ_cons, List.take_zero, zero_add] at hhead
      simp only [Nat.cast_add, Nat.cast_one] at h1
      have hw : wrap_int (func + 1) = func + 1 := wrap_int_succ func h0 (by omega)
      simp only [do_config_loop, env_call, hhead, ne_eq, not_true_eq_false, if_false, hw]
      rw [ih k (func + 1) 0 _ (by omega) (by omega) (by simpa using hk)]
      · simp [bind_calls]
      · intro j hj
        have := hok (j + 1) (by omega)
        simpa [bind_calls] using this
      · simpa [bind_calls] using hfail

/-- Lemma: Successful registrations append their descriptors to the registry in order. -/
theorem probe_all_registry (env : Env) :
    ∀ (pdevs : List platform_device) (ds : List hidg_func_descriptor) (w : World),
      pdevs.map (fun p => p.platform_data) = ds.map some →
      (∀ s ∈ (probe_all env pdevs w).1, s = 0) →
      (probe_all env pdevs w).2.hidg_func_list
        = w.hidg_func_list ++ ds.map (fun d => ({ func := d } : hidg_func_node)) := by
  intro pdevs
  induction pdevs with
  | nil =>
    intro ds w hds _
    cases ds with
    | nil => simp [probe_all]
    | cons d ds => simp at hds
  | cons p ps ih =>
    intro ds w hds hreg
    cases ds with
    | nil => simp at hds
    | cons d ds =>
      simp only [List.map_cons, List.cons.injEq] at hds
      obtain ⟨hp, hps⟩ := hds
      have h1 : (hidg_plat_driver_probe env p w).1 = 0 := hreg _ (by simp [probe_all])
      have h2 : (hidg_plat_driver_probe env p w).2.hidg_func_list
          = w.hidg_func_list ++ [{ func := d }] := by
        unfold hidg_plat_driver_probe at h1 ⊢
        rw [hp] at h1 ⊢
        by_cases hz : (env_call env Call.kzalloc w).1 = 0
        · simp [hz, ENOMEM] at h1
        · have hz2 : ¬ env.ret (w.trace ++ [Call.kzalloc]) = 0 := hz
          simp [hz2, env_call]
      have := ih ds (hidg_plat_driver_probe env p w).2 hps
        (fun s hs => hreg s (by simp [probe_all, hs]))
      simp only [probe_all]
      rw [this, h2]
      simp

/-- Lemma: The `i`-th expected bind call carries the `i`-th descriptor and the index `start + i`. -/
theorem bind_calls_get (c : usb_configuration) :
    ∀ (ds : List hidg_func_descriptor) (start : Int) (i : Nat) (d : hidg_func_descriptor),
      ds[i]? = some d →
      (bind_calls c ds start)[i]? = some (Call.hidg_bind_config c d (start + i))
  | [], _, _, _, h => by simp at h
  | d0 :: ds, start, 0, d, h => by
    simp only [List.getElem?_cons_zero, Option.some.injEq] at h
    simp [bind_calls, h]
  | d0 :: ds, start, i + 1, d, h => by
    simp only [List.getElem?_cons_succ] at h
    have := bind_calls_get c ds (start + 1) i d h
    simp only [bind_calls, List.getElem?_cons_succ, this, Nat.cast_add, Nat.cast_one]
    congr 2
    ring

/-- Lemma: The status of `do_config` is the status of its loop. -/
theorem do_config_status (env : Env) (c : usb_configuration) (w : World) :
    (do_config env c w).1
      = (do_config_loop env (do_config env c w).2.1 w.hidg_func_list 0 0 w).1 := rfl

/-- Lemma: The world after `do_config` is the world after its loop. -/
theorem do_config_world (env : Env) (c : usb_configuration) (w : World) :
    (do_config env c w).2.2
      = (do_config_loop env (do_config env c w).2.1 w.hidg_func_list 0 0 w).2 := rfl

/-- Lemma: The loop of `do_config` only appends transport binds on `c` to the history. -/
theorem do_config_loop_frame (env : Env) (c : usb_configuration) :
    ∀ (l : List hidg_func_node) (func st : Int) (w : World),
      ∃ evs, (do_config_loop env c l func st w).2 = { w with trace := w.trace ++ evs } ∧
        ∀ e ∈ evs, ∃ d i, e = Call.hidg_bind_config c d i := by
  intro l
  induction l with
  | nil =>
    intro func st w
    exact ⟨[], by simp [do_config_loop, world_trace_append_nil], by simp⟩
  | cons e rest ih =>
    intro func st w
    simp only [do_config_loop]
    split
    · exact ⟨[Call.hidg_bind_config c e.func func], by simp [env_call], by simp⟩
    · obtain ⟨evs, h1, h2⟩ := ih (wrap_int (func + 1))
        (env_call env (Call.hidg_bind_config c e.func func) w).1
        (env_call env (Call.hidg_bind_config c e.func func) w).2
      refine ⟨Call.hidg_bind_config c e.func func :: evs, ?_, ?_⟩
      · rw [h1]
        simp [env_call]
      · intro x hx
        rcases List.mem_cons.mp hx with hx | hx
        · exact ⟨_, _, hx⟩
        · exact h2 x hx

/-- Lemma: Or-ing in `USB_CONFIG_ATT_WAKEUP` sets bit 5. -/
theorem wakeup_bit_set (a : Nat) :
    (a ||| USB_CONFIG_ATT_WAKEUP).testBit 5 = true := by
  have h : Nat.testBit 32 5 = true := by decide
  simp [USB_CONFIG_ATT_WAKEUP, Nat.testBit_or, h]

/-- Lemma: Or-ing in `USB_CONFIG_ATT_WAKEUP` leaves every bit but bit 5 alone. -/
theorem wakeup_other_bits (a j : Nat) (hj : j ≠ 5) :
    (a ||| USB_CONFIG_ATT_WAKEUP).testBit j = a.testBit j := by
  have h : (32 : Nat).testBit j = false := by
    rw [show (32 : Nat) = 2 ^ 5 from rfl, Nat.testBit_two_pow]
    simpa using fun h => hj h.symm
  simp [USB_CONFIG_ATT_WAKEUP, Nat.testBit_or, h]

/-- Lemma: Or-ing `USB_CONFIG_ATT_WAKEUP` into a byte gives a byte. -/
theorem wakeup_fits_u8 (a : Nat) (ha : a < 256) :
    (a ||| USB_CONFIG_ATT_WAKEUP) % 256 = a ||| USB_CONFIG_ATT_WAKEUP := by
  apply Nat.mod_eq_of_lt
  exact @Nat.or_lt_two_pow _ _ 8 ha (by decide)

/-- Lemma: The loop of `hidg_plat_driver_remove` frees every node and empties the registry. -/
theorem remove_loop_empties (env : Env) :
    ∀ (l : List hidg_func_node) (w : World), w.hidg_func_list = l →
      hidg_plat_driver_remove_loop env l w
        = { w with hidg_func_list := [], trace := w.trace ++ List.replicate l.length Call.kfree } := by
  intro l
  induction l with
  | nil =>
    intro w hw
    cases w
    simp_all [hidg_plat_driver_remove_loop]
  | cons e n ih =>
    intro w hw
    simp only [hidg_plat_driver_remove_loop]
    rw [ih _ (by simp [env_call, list_del, hw])]
    simp [env_call, List.replicate_succ]

/-- Lemma: The counting loop of `hid_bind` adds the registry length, as long as the C `int` does not wrap. -/
theorem count_funcs_eq :
    ∀ (l : List hidg_func_node) (funcs : Int), 0 ≤ funcs → funcs + l.length < 2147483648 →
      count_funcs l funcs = funcs + l.length := by
  intro l
  induction l with
  | nil => intro funcs _ _; simp [count_funcs]
  | cons e tmp ih =>
    intro funcs h0 h1
    simp only [List.length_cons, Nat.cast_add, Nat.cast_one] at h1
    simp only [count_funcs, wrap_int_succ funcs h0 (by omega)]
    rw [ih (funcs + 1) (by omega) (by omega)]
    simp only [List.length_cons, Nat.cast_add, Nat.cast_one]
    ring

/-- Lemma: The function `do_config` only appends transport binds on the resulting configuration to the history. -/
theorem do_config_frame (env : Env) (c : usb_configuration) (w : World) :
    ∃ evs, (do_config env c w).2.2 = { w with trace := w.trace ++ evs } ∧
      ∀ e ∈ evs, ∃ d i, e = Call.hidg_bind_config (do_config env c w).2.1 d i := by
  obtain ⟨evs, h1, h2⟩ := do_config_loop_frame env (do_config env c w).2.1
    w.hidg_func_list 0 0 w
  exact ⟨evs, by rw [do_config_world, h1], h2⟩

/-- Lemma: Running `usb_add_config` with `do_config` changes `config_driver` and the history only; past its own call the history gains transport binds and the framework return. -/
theorem usb_add_config_frame (env : Env) (w : World) :
    ∃ rest c2, (usb_add_config env (do_config env) w).2
        = { w with config_driver := c2,
                   trace := w.trace ++ Call.usb_add_config w.config_driver :: rest } ∧
      ∀ e ∈ rest, (∃ c d i, e = Call.hidg_bind_config c d i) ∨
        ∃ s, e = Call.usb_add_config_return s := by
  dsimp only [usb_add_config]
  split
  · refine ⟨[], w.config_driver, ?_, by simp⟩
    simp [env_call]
  · obtain ⟨evs, h1, h2⟩ := do_config_frame env
      (env_call env (Call.usb_add_config w.config_driver) w).2.config_driver
      (env_call env (Call.usb_add_config w.config_driver) w).2
    refine ⟨evs ++ [Call.usb_add_config_return (do_config env
        (env_call env (Call.usb_add_config w.config_driver) w).2.config_driver
        (env_call env (Call.usb_add_config w.config_driver) w).2).1],
      (do_config env
        (env_call env (Call.usb_add_config w.config_driver) w).2.config_driver
        (env_call env (Call.usb_add_config w.config_driver) w).2).2.1, ?_, ?_⟩
    · simp only [h1]
      simp [env_call]
    · intro x hx
      rcases List.mem_append.mp hx with hx | hx
      · obtain ⟨d, i, hdi⟩ := h2 x hx
        exact Or.inl ⟨_, d, i, hdi⟩
      · exact Or.inr ⟨_, by simpa using hx⟩

/-- Lemma: The function `hid_bind` keeps the registry and only appends bind-stage calls to the history. -/
theorem hid_bind_frame (env : Env) (w : World) :
    ∃ evs, (hid_bind env w).2.trace = w.trace ++ evs ∧
      (hid_bind env w).2.hidg_func_list = w.hidg_func_list ∧
      ∀ e ∈ evs, e.is_bind_stage = true := by
  dsimp only [hid_bind]
  split
  · exact ⟨[], by simp, rfl, by simp⟩
  · split
    · exact ⟨[Call.ghid_setup (count_funcs w.hidg_func_list 0)], rfl, rfl,
        by simp [Call.is_bind_stage]⟩
    · split
      · exact ⟨[Call.ghid_setup (count_funcs w.hidg_func_list 0), Call.usb_string_ids_tab],
          by simp [usb_string_ids_tab, env_call], rfl, by simp [Call.is_bind_stage]⟩
      · rename_i h1 h2 h3
        generalize hw3 : ({ (usb_string_ids_tab env
            (env_call env (Call.ghid_setup (count_funcs w.hidg_func_list 0)) w).2).2 with
          device_desc :=
            { (usb_string_ids_tab env (env_call env
                (Call.ghid_setup (count_funcs w.hidg_func_list 0)) w).2).2.device_desc with
              iManufacturer := string_id_at (usb_string_ids_tab env (env_call env
                (Call.ghid_setup (count_funcs w.hidg_func_list 0)) w).2).2.strings_dev
                  USB_GADGET_MANUFACTURER_IDX,
              iProduct := string_id_at (usb_string_ids_tab env (env_call env
                (Call.ghid_setup (count_funcs w.hidg_func_list 0)) w).2).2.strings_dev
                  USB_GADGET_PRODUCT_IDX } } : World) = w3
        have ht3 : w3.trace = w.trace ++
            [Call.ghid_setup (count_funcs w.hidg_func_list 0), Call.usb_string_ids_tab] := by
          rw [← hw3]; simp [usb_string_ids_tab, env_call]
        have hl3 : w3.hidg_func_list = w.hidg_func_list := by
          rw [← hw3]; simp [usb_string_ids_tab, env_call]
        obtain ⟨rest, c2, hf1, hf2⟩ := usb_add_config_frame env w3
        have hrest : ∀ e ∈ rest, e.is_bind_stage = true := by
          intro e he
          rcases hf2 e he with ⟨c, d, i, h⟩ | ⟨s, h⟩ <;> simp [h, Call.is_bind_stage]
        split
        · refine ⟨[Call.ghid_setup (count_funcs w.hidg_func_list 0), Call.usb_string_ids_tab]
            ++ Call.usb_add_config w3.config_driver :: rest, ?_, ?_, ?_⟩
          · rw [hf1]; simp [ht3]
          · rw [hf1]; exact hl3
          · simpa [Call.is_bind_stage, or_imp, forall_and] using hrest
        · refine ⟨[Call.ghid_setup (count_funcs w.hidg_func_list 0), Call.usb_string_ids_tab]
            ++ Call.usb_add_config w3.config_driver :: (rest ++
                [Call.usb_composite_overwrite_options]), ?_, ?_, ?_⟩
          · simp [env_call, hf1, ht3]
          · simp [env_call, hf1, hl3]
          · simpa [Call.is_bind_stage, or_imp, forall_and] using hrest

/-- Lemma: The function `hidg_plat_driver_probe` appends at most an allocation to the history. -/
theorem hidg_plat_driver_probe_frame (env : Env) (pdev : platform_device) (w : World) :
    ∃ ks, (hidg_plat_driver_probe env pdev w).2.trace = w.trace ++ ks ∧
      ∀ e ∈ ks, e = Call.kzalloc := by
  unfold hidg_plat_driver_probe
  cases pdev.platform_data with
  | none => exact ⟨[], by simp, by simp⟩
  | some d =>
    dsimp only
    split
    · exact ⟨[Call.kzalloc], rfl, by simp⟩
    · exact ⟨[Call.kzalloc], rfl, by simp⟩

/-- Lemma: Probing a list of devices appends only allocations to the history. -/
theorem probe_fold_frame (env : Env) :
    ∀ (devs : List platform_device) (w : World),
      ∃ ks, (devs.foldl (fun acc pdev => (hidg_plat_driver_probe env pdev acc).2) w).trace
          = w.trace ++ ks ∧ ∀ e ∈ ks, e = Call.kzalloc := by
  intro devs
  induction devs with
  | nil => intro w; exact ⟨[], by simp, by simp⟩
  | cons p ps ih =>
    intro w
    obtain ⟨k1, h1, h1'⟩ := hidg_plat_driver_probe_frame env p w
    obtain ⟨k2, h2, h2'⟩ := ih (hidg_plat_driver_probe env p w).2
    refine ⟨k1 ++ k2, ?_, ?_⟩
    · simp only [List.foldl_cons, h2, h1, List.append_assoc]
    · intro e he
      rcases List.mem_append.mp he with h | h
      · exact h1' e h
      · exact h2' e h

/-- Lemma: Removing a list of devices appends only frees to the history. -/
theorem remove_fold_frame (env : Env) :
    ∀ (devs : List platform_device) (w : World),
      ∃ fs, (devs.foldl (fun acc pdev => (hidg_plat_driver_remove env pdev acc).2) w).trace
          = w.trace ++ fs ∧ ∀ e ∈ fs, e = Call.kfree := by
  intro devs
  induction devs with
  | nil => intro w; exact ⟨[], by simp, by simp⟩
  | cons p ps ih =>
    intro w
    obtain ⟨f2, h2, h2'⟩ := ih (hidg_plat_driver_remove env p w).2
    refine ⟨List.replicate w.hidg_func_list.length Call.kfree ++ f2, ?_, ?_⟩
    · simp only [List.foldl_cons, h2]
      simp [hidg_plat_driver_remove, remove_loop_empties env w.hidg_func_list w rfl]
    · intro e he
      rcases List.mem_append.mp he with h | h
      · exact (List.mem_replicate.mp h).2
      · exact h2' e h

/-- Lemma: The history after the first two steps of `hidg_init`. -/
theorem probe_stage_trace (env : Env) (w : World) :
    ∃ ks, (probe_stage env w).2.trace
        = w.trace ++ Call.platform_device_register :: Call.platform_driver_probe ::
            (ks ++ [Call.platform_driver_probe_return]) ∧
      ∀ e ∈ ks, e = Call.kzalloc := by
  obtain ⟨ks, h1, h2⟩ := probe_fold_frame env
    (env.devices (env_call env Call.platform_driver_probe (init_my_hid env w).2).2.trace)
    (env_call env Call.platform_driver_probe (init_my_hid env w).2).2
  refine ⟨ks, ?_, h2⟩
  simp only [probe_stage, platform_driver_probe]
  simp only [env_call] at h1 ⊢
  rw [h1]
  simp [init_my_hid, env_call]

/-- Lemma: The history after the third step of `hidg_init`. -/
theorem composite_stage_trace (env : Env) (w : World) :
    ∃ bs, (composite_stage env w).2.trace
        = (probe_stage env w).2.trace ++ Call.usb_composite_probe :: bs ∧
      ∀ e ∈ bs, e.is_bind_stage = true := by
  dsimp only [composite_stage, usb_composite_probe]
  split
  · exact ⟨[], rfl, by simp⟩
  · obtain ⟨bs, h1, _, h3⟩ := hid_bind_frame env
      (env_call env Call.usb_composite_probe (probe_stage env w).2).2
    refine ⟨bs ++ [Call.usb_composite_probe_return (hid_bind env
      (env_call env Call.usb_composite_probe (probe_stage env w).2).2).1], ?_, ?_⟩
    · simp only [env_call] at h1 ⊢
      rw [h1]
      simp
    · intro e he
      rcases List.mem_append.mp he with h | h
      · exact h3 e h
      · simp only [List.mem_singleton] at h
        simp [h, Call.is_bind_stage]

/-- Lemma: The history after `platform_driver_unregister` with the remove callback of this driver. -/
theorem platform_driver_unregister_trace (env : Env) (w : World) :
    ∃ fs, (platform_driver_unregister env (hidg_plat_driver_remove env) w).trace
        = w.trace ++ Call.platform_driver_unregister :: fs ∧
      ∀ e ∈ fs, e = Call.kfree := by
  obtain ⟨fs, h1, h2⟩ := remove_fold_frame env
    (env.devices (env_call env Call.platform_driver_unregister w).2.trace)
    (env_call env Call.platform_driver_unregister w).2
  refine ⟨fs, ?_, h2⟩
  simp only [platform_driver_unregister]
  simp only [env_call] at h1 ⊢
  rw [h1]
  simp

/-- Lemma: The three ways `hidg_init` can end, in terms of its steps. -/
theorem hidg_init_cases (env : Env) (w : World) :
    hidg_init env w =
      if (probe_stage env w).1 < 0 then
        ((probe_stage env w).1,
          (env_call env Call.platform_device_unregister (probe_stage env w).2).2)
      else if (composite_stage env w).1 < 0 then
        ((composite_stage env w).1,
          (env_call env Call.platform_device_unregister
            (platform_driver_unregister env (hidg_plat_driver_remove env)
              (composite_stage env w).2)).2)
      else composite_stage env w := rfl

/-- Lemma: An event different from `b` does not occur in a list of `b`s. -/
theorem count_zero_of_all_eq (a b : Call) (l : List Call) (hab : a ≠ b)
    (h : ∀ e ∈ l, e = b) : l.count a = 0 :=
  List.count_eq_zero.mpr (fun hmem => hab (h a hmem))

/-- Lemma: An event that is not a bind-stage call does not occur among bind-stage calls. -/
theorem count_zero_of_bind_stage (a : Call) (l : List Call) (ha : a.is_bind_stage = false)
    (h : ∀ e ∈ l, e.is_bind_stage = true) : l.count a = 0 :=
  List.count_eq_zero.mpr (fun hmem => by
    have := h a hmem
    rw [ha] at this
    exact Bool.noConfusion this)

/-- Lemma: The first two calls of `hidg_init` are always `platform_device_register` and `platform_driver_probe`. -/
theorem hidg_init_first_calls (env : Env) (w : World) :
    ∃ rest, (hidg_init env w).2.trace
        = w.trace ++ Call.platform_device_register :: Call.platform_driver_probe :: rest := by
  obtain ⟨ks, hks, _⟩ := probe_stage_trace env w
  obtain ⟨bs, hbs, _⟩ := composite_stage_trace env w
  obtain ⟨fs, hfs, _⟩ := platform_driver_unregister_trace env (composite_stage env w).2
  rw [hidg_init_cases]
  split
  · exact ⟨_, by simp [env_call, hks]; rfl⟩
  · split
    · exact ⟨_, by simp [env_call, hfs, hbs, hks]; rfl⟩
    · exact ⟨_, by simp [hbs, hks]; rfl⟩

/-! ## Claims -/

/-- C1 (order preservation): starting from an empty registry, register the
descriptors `ds` by successful calls of `hidg_plat_driver_probe`, one per
device of `pdevs`; if every transport bind made by `do_config` returns `0`,
then `do_config` returns `0` and the calls it makes are exactly
`hidg_bind_config(c, ds[i], i)` for `i = 0, ..., N-1` in that order, `N`
calls in all.  The index is a C `int`, so `N` is taken below `2^31`. -/
theorem do_config_binds_in_registration_order (env : Env) (c : usb_configuration)
    (w0 : World) (pdevs : List platform_device) (ds : List hidg_func_descriptor)
    (hempty : w0.hidg_func_list = [])
    (hmax : pdevs.length < 2147483648)
    (hds : pdevs.map (fun p => p.platform_data) = ds.map some)
    (hreg : ∀ s ∈ (probe_all env pdevs w0).1, s = 0)
    (hbind : ∀ k, k < ds.length →
      env.ret ((probe_all env pdevs w0).2.trace ++
        (bind_calls (do_config env c (probe_all env pdevs w0).2).2.1 ds 0).take (k + 1)) = 0) :
    (do_config env c (probe_all env pdevs w0).2).1 = 0 ∧
    (do_config env c (probe_all env pdevs w0).2).2.2.trace
      = (probe_all env pdevs w0).2.trace ++
          bind_calls (do_config env c (probe_all env pdevs w0).2).2.1 ds 0 ∧
    (bind_calls (do_config env c (probe_all env pdevs w0).2).2.1 ds 0).length = pdevs.length ∧
    (∀ (i : Nat) d, ds[i]? = some d →
      (bind_calls (do_config env c (probe_all env pdevs w0).2).2.1 ds 0)[i]?
        = some (Call.hidg_bind_config (do_config env c (probe_all env pdevs w0).2).2.1 d i)) := by
  have hlen : ds.length = pdevs.length := by
    have := congrArg List.length hds
    simpa using this.symm
  have hlist : (probe_all env pdevs w0).2.hidg_func_list
      = ds.map (fun d => ({ func := d } : hidg_func_node)) := by
    rw [probe_all_registry env pdevs ds w0 hds hreg, hempty]
    simp
  have hmap : (ds.map (fun d => ({ func := d } : hidg_func_node))).map (fun e => e.func) = ds := by
    simp [List.map_map, Function.comp_def]
  have hloop := do_config_loop_ok env (do_config env c (probe_all env pdevs w0).2).2.1
    (probe_all env pdevs w0).2.hidg_func_list 0 (probe_all env pdevs w0).2 (le_refl 0)
    (by rw [hlist]; simp only [List.length_map]; omega)
    (by
      rw [hlist, hmap]
      intro k hk
      exact hbind k (by simpa using hk))
  rw [hlist, hmap] at hloop
  refine ⟨?_, ?_, ?_, ?_⟩
  · rw [do_config_status, hlist, hloop]
  · rw [do_config_world, hlist, hloop]
  · rw [bind_calls_length, hlen]
  · intro i d hd
    simpa using bind_calls_get _ ds 0 i d hd

/-- Witness of C1: the keyboard and the mouse registered in that order in an
environment where every call succeeds. -/
theorem do_config_binds_in_registration_order_witness :
    (do_config env_all_ok config_driver
        (probe_all env_all_ok [my_hid, sample_mouse] (initial_world ⟨true⟩)).2).1 = 0 ∧
    (do_config env_all_ok config_driver
        (probe_all env_all_ok [my_hid, sample_mouse] (initial_world ⟨true⟩)).2).2.2.trace
      = [Call.kzalloc, Call.kzalloc,
         Call.hidg_bind_config
           { config_driver with descriptors := otg_desc, bmAttributes := 96 } my_hid_data 0,
         Call.hidg_bind_config
           { config_driver with descriptors := otg_desc, bmAttributes := 96 }
           sample_mouse_data 1] := by
  have h := do_config_binds_in_registration_order env_all_ok config_driver
    (initial_world ⟨true⟩) [my_hid, sample_mouse] [my_hid_data, sample_mouse_data]
    rfl (by decide) rfl (by decide) (by decide)
  exact ⟨h.1, h.2.1.trans (by decide)⟩

/-- C3 (stop at first failure): if the binds of registry positions `0..k-1`
return `0` and the bind of position `k` returns `s ≠ 0`, then `do_config`
returns exactly `s` and the calls it made are exactly
`hidg_bind_config(c, d_i, i)` for `i = 0, ..., k`: positions `0..k` with
indices `0..k`, and no entry after position `k`.  The index is a C `int`, so
`k` is taken below `2^31`. -/
theorem do_config_stops_at_first_failure (env : Env) (c : usb_configuration) (w : World)
    (k : Nat) (s : Int)
    (hk : k < w.hidg_func_list.length) (hmax : k < 2147483648)
    (hok : ∀ j, j < k →
      env.ret (w.trace ++
        (bind_calls (do_config env c w).2.1
          (w.hidg_func_list.map (fun e => e.func)) 0).take (j + 1)) = 0)
    (hfail : env.ret (w.trace ++
        (bind_calls (do_config env c w).2.1
          (w.hidg_func_list.map (fun e => e.func)) 0).take (k + 1)) = s)
    (hs : s ≠ 0) :
    (do_config env c w).1 = s ∧
    (do_config env c w).2.2.trace
      = w.trace ++ (bind_calls (do_config env c w).2.1
          (w.hidg_func_list.map (fun e => e.func)) 0).take (k + 1) ∧
    ((bind_calls (do_config env c w).2.1
          (w.hidg_func_list.map (fun e => e.func)) 0).take (k + 1)).length = k + 1 ∧
    (∀ (i : Nat) e, i ≤ k → w.hidg_func_list[i]? = some e →
      ((bind_calls (do_config env c w).2.1
          (w.hidg_func_list.map (fun e => e.func)) 0).take (k + 1))[i]?
        = some (Call.hidg_bind_config (do_config env c w).2.1 e.func i)) := by
  have hloop := do_config_loop_fail env (do_config env c w).2.1 s hs w.hidg_func_list k 0 0 w
    (le_refl 0) (by omega) hk hok hfail
  refine ⟨?_, ?_, ?_, ?_⟩
  · rw [do_config_status, hloop]
  · rw [do_config_world, hloop]
  · rw [List.length_take, bind_calls_length, List.length_map]
    omega
  · intro i e hi he
    rw [List.getElem?_take_of_lt (by omega)]
    have := bind_calls_get (do_config env c w).2.1 (w.hidg_func_list.map (fun e => e.func)) 0 i
      e.func (by simp [List.getElem?_map, he])
    simpa using this

/-- Witness of C3: keyboard and mouse registered, the bind of the mouse
(position `1`) fails with `-22`. -/
theorem do_config_stops_at_first_failure_witness :
    (do_config env_second_bind_fails config_driver (world_two_functions ⟨false⟩)).1 = -22 ∧
    (do_config env_second_bind_fails config_driver (world_two_functions ⟨false⟩)).2.2.trace
      = [Call.hidg_bind_config config_driver my_hid_data 0,
         Call.hidg_bind_config config_driver sample_mouse_data 1] := by
  have h := do_config_stops_at_first_failure env_second_bind_fails config_driver
    (world_two_functions ⟨false⟩) 1 (-22) (by decide) (by decide) (by decide) (by decide)
    (by decide)
  exact ⟨h.1, h.2.1.trans (by decide)⟩

/-- C7 (register appends at the tail): with `L` the registry before the call,
`hidg_plat_driver_probe` on a device whose platform data is a descriptor `d`
returns `0` and leaves the registry equal to `L ++ [d]` whenever the
allocation succeeds (also when `d` is already in `L`); it returns `-ENODEV`
when the platform data is missing and `-ENOMEM` when the allocation fails,
these are its only failures, and after either the registry is exactly `L`. -/
theorem hidg_plat_driver_probe_appends (env : Env) (pdev : platform_device) (w : World) :
    (∀ d, pdev.platform_data = some d → env.ret (w.trace ++ [Call.kzalloc]) ≠ 0 →
      (hidg_plat_driver_probe env pdev w).1 = 0 ∧
      (hidg_plat_driver_probe env pdev w).2.hidg_func_list
        = w.hidg_func_list ++ [{ func := d }]) ∧
    (pdev.platform_data = none →
      (hidg_plat_driver_probe env pdev w).1 = -ENODEV ∧
      (hidg_plat_driver_probe env pdev w).2.hidg_func_list = w.hidg_func_list) ∧
    (∀ d, pdev.platform_data = some d → env.ret (w.trace ++ [Call.kzalloc]) = 0 →
      (hidg_plat_driver_probe env pdev w).1 = -ENOMEM ∧
      (hidg_plat_driver_probe env pdev w).2.hidg_func_list = w.hidg_func_list) ∧
    ((hidg_plat_driver_probe env pdev w).1 = 0 →
      ∃ d, pdev.platform_data = some d ∧
        (hidg_plat_driver_probe env pdev w).2.hidg_func_list
          = w.hidg_func_list ++ [{ func := d }]) ∧
    ((hidg_plat_driver_probe env pdev w).1 ≠ 0 →
      ((hidg_plat_driver_probe env pdev w).1 = -ENODEV ∨
        (hidg_plat_driver_probe env pdev w).1 = -ENOMEM) ∧
      (hidg_plat_driver_probe env pdev w).2.hidg_func_list = w.hidg_func_list) := by
  unfold hidg_plat_driver_probe
  cases hp : pdev.platform_data with
  | none => simp [ENODEV]
  | some d =>
    by_cases hz : env.ret (w.trace ++ [Call.kzalloc]) = 0
    · simp [env_call, hz, ENOMEM]
    · simp [env_call, hz]

/-- C8, as the code behaves (amended): for every registry and every device
it is invoked for, `hidg_plat_driver_remove` returns `0`, frees one node per
registry entry and leaves the registry empty; nothing else of the module
state changes. -/
theorem hidg_plat_driver_remove_empties_registry (env : Env) (pdev : platform_device)
    (w : World) :
    (hidg_plat_driver_remove env pdev w).1 = 0 ∧
    (hidg_plat_driver_remove env pdev w).2
      = { w with hidg_func_list := [],
                 trace := w.trace ++ List.replicate w.hidg_func_list.length Call.kfree } := by
  simp [hidg_plat_driver_remove, remove_loop_empties env w.hidg_func_list w rfl]

/-- C8 fails as stated: with the keyboard and the mouse registered, running
the remove callback for the keyboard device also removes the mouse entry,
which the claim says must stay. -/
theorem hidg_plat_driver_remove_drops_other_entries :
    ({ func := sample_mouse_data } : hidg_func_node) ∈ (world_two_functions ⟨false⟩).hidg_func_list ∧
    ({ func := sample_mouse_data } : hidg_func_node) ≠ { func := my_hid_data } ∧
    my_hid.platform_data = some my_hid_data ∧
    (hidg_plat_driver_remove env_all_ok my_hid (world_two_functions ⟨false⟩)).2.hidg_func_list
      ≠ [{ func := sample_mouse_data }] ∧
    ({ func := sample_mouse_data } : hidg_func_node) ∉
      (hidg_plat_driver_remove env_all_ok my_hid (world_two_functions ⟨false⟩)).2.hidg_func_list := by
  decide

/-- C2 (empty-registry rejection): with an empty registry `hid_bind` returns
`-ENODEV` and leaves the whole module state as it was: no external call is
recorded (neither `ghid_setup` nor `usb_string_ids_tab` nor `usb_add_config`)
and `device_desc` is unchanged. -/
theorem hid_bind_rejects_empty_registry (env : Env) (w : World)
    (hempty : w.hidg_func_list = []) :
    (hid_bind env w).1 = -ENODEV ∧ (hid_bind env w).1 = -19 ∧
    (hid_bind env w).2 = w ∧
    (hid_bind env w).2.trace = w.trace ∧
    (hid_bind env w).2.device_desc = w.device_desc := by
  simp [hid_bind, hempty, count_funcs, ENODEV]

/-- Witness of C2: the initial module state has an empty registry. -/
theorem hid_bind_rejects_empty_registry_witness :
    (hid_bind env_all_ok (initial_world ⟨false⟩)).1 = -19 ∧
    (hid_bind env_all_ok (initial_world ⟨false⟩)).2.trace = [] :=
  ⟨(hid_bind_rejects_empty_registry env_all_ok (initial_world ⟨false⟩) rfl).2.1,
   (hid_bind_rejects_empty_registry env_all_ok (initial_world ⟨false⟩) rfl).2.2.2.1⟩

/-- C9 (OTG injection): for a configuration whose `bmAttributes` is a byte,
if the gadget is OTG-capable then after `do_config` the descriptor list is
`otg_desc` and `bmAttributes` is the old value with `USB_CONFIG_ATT_WAKEUP`
(bit 5) set and every other bit as before; if the gadget is not OTG-capable
the configuration is unchanged.  Every `hidg_bind_config` call that
`do_config` makes already receives the resulting configuration, and none of
this depends on the statuses the binds return. -/
theorem do_config_otg_injection (env : Env) (c : usb_configuration) (w : World)
    (hattr : c.bmAttributes < 256) :
    (gadget_is_otg w.gadget = true →
      (do_config env c w).2.1.descriptors = otg_desc ∧
      (do_config env c w).2.1.bmAttributes = c.bmAttributes ||| USB_CONFIG_ATT_WAKEUP ∧
      (do_config env c w).2.1.bmAttributes.testBit 5 = true ∧
      (∀ j, j ≠ 5 →
        (do_config env c w).2.1.bmAttributes.testBit j = c.bmAttributes.testBit j) ∧
      (do_config env c w).2.1.label = c.label ∧
      (do_config env c w).2.1.bConfigurationValue = c.bConfigurationValue) ∧
    (gadget_is_otg w.gadget = false → (do_config env c w).2.1 = c) ∧
    (∃ evs, (do_config env c w).2.2.trace = w.trace ++ evs ∧
      ∀ e ∈ evs, ∃ d i, e = Call.hidg_bind_config (do_config env c w).2.1 d i) := by
  refine ⟨?_, ?_, ?_⟩
  · intro hotg
    have hc : (do_config env c w).2.1
        = { c with descriptors := otg_desc,
                   bmAttributes := c.bmAttributes ||| USB_CONFIG_ATT_WAKEUP } := by
      simp [do_config, hotg, wakeup_fits_u8 c.bmAttributes hattr]
    rw [hc]
    exact ⟨rfl, rfl, wakeup_bit_set _, fun j hj => wakeup_other_bits _ j hj, rfl, rfl⟩
  · intro hotg
    simp [do_config, hotg]
  · obtain ⟨evs, h1, h2⟩ := do_config_loop_frame env (do_config env c w).2.1
      w.hidg_func_list 0 0 w
    refine ⟨evs, ?_, h2⟩
    rw [do_config_world, h1]

/-- Witness of C9: the static `config_driver` on an OTG-capable gadget, with
the bind of the second function failing. -/
theorem do_config_otg_injection_witness :
    (do_config env_second_bind_fails config_driver (world_two_functions ⟨true⟩)).2.1.descriptors
      = otg_desc ∧
    (do_config env_second_bind_fails config_driver (world_two_functions ⟨true⟩)).2.1.bmAttributes
      = 96 :=
  ⟨((do_config_otg_injection env_second_bind_fails config_driver (world_two_functions ⟨true⟩)
      (by decide)).1 rfl).1,
   ((do_config_otg_injection env_second_bind_fails config_driver (world_two_functions ⟨true⟩)
      (by decide)).1 rfl).2.1⟩

/-- C10 (gated stage sequence of `hid_bind`): for a non-empty registry of `n`
entries (`n` below `2^31`, the count being a C `int`), `hid_bind` first calls
`ghid_setup` with function count `n`; a negative status is returned
unchanged and nothing else is called.  Otherwise it calls
`usb_string_ids_tab`; a negative status is returned unchanged, nothing else
is called and `device_desc` is untouched.  Otherwise it copies the ids of
the manufacturer and product slots of the string table into
`device_desc.iManufacturer` and `device_desc.iProduct` and only then calls
`usb_add_config` on `config_driver` with `do_config` as bind callback; after
that call the history holds, past the three stage calls, only transport
binds and the framework's return.  A negative status of `usb_add_config` is
returned unchanged with nothing called after it; otherwise `hid_bind`
returns `0`, and it returns `0` only then. -/
theorem hid_bind_stage_sequence (env : Env) (w : World)
    (hne : w.hidg_func_list ≠ []) (hmax : w.hidg_func_list.length < 2147483648) :
    (env.ret (w.trace ++ [Call.ghid_setup w.hidg_func_list.length]) < 0 →
      (hid_bind env w).1 = env.ret (w.trace ++ [Call.ghid_setup w.hidg_func_list.length]) ∧
      (hid_bind env w).2
        = { w with trace := w.trace ++ [Call.ghid_setup w.hidg_func_list.length] }) ∧
    (0 ≤ env.ret (w.trace ++ [Call.ghid_setup w.hidg_func_list.length]) →
      env.ret (w.trace ++ [Call.ghid_setup w.hidg_func_list.length, Call.usb_string_ids_tab]) < 0 →
      (hid_bind env w).1
        = env.ret (w.trace ++
            [Call.ghid_setup w.hidg_func_list.length, Call.usb_string_ids_tab]) ∧
      (hid_bind env w).2.trace
        = w.trace ++ [Call.ghid_setup w.hidg_func_list.length, Call.usb_string_ids_tab] ∧
      (hid_bind env w).2.device_desc = w.device_desc) ∧
    (0 ≤ env.ret (w.trace ++ [Call.ghid_setup w.hidg_func_list.length]) →
      0 ≤ env.ret (w.trace ++
            [Call.ghid_setup w.hidg_func_list.length, Call.usb_string_ids_tab]) →
      ∃ w3 : World,
        w3.trace = w.trace ++ [Call.ghid_setup w.hidg_func_list.length, Call.usb_string_ids_tab] ∧
        w3.hidg_func_list = w.hidg_func_list ∧
        w3.config_driver = w.config_driver ∧
        w3.strings_dev = w.strings_dev.mapIdx (fun i str =>
          { str with id := env.string_id (w.trace ++
              [Call.ghid_setup w.hidg_func_list.length, Call.usb_string_ids_tab]) i str.id }) ∧
        w3.device_desc =
          { w.device_desc with
              iManufacturer := string_id_at w3.strings_dev USB_GADGET_MANUFACTURER_IDX,
              iProduct := string_id_at w3.strings_dev USB_GADGET_PRODUCT_IDX } ∧
        (∃ rest, (usb_add_config env (do_config env) w3).2.trace
            = w.trace ++ [Call.ghid_setup w.hidg_func_list.length, Call.usb_string_ids_tab]
                ++ Call.usb_add_config w.config_driver :: rest ∧
          ∀ e ∈ rest, (∃ c d i, e = Call.hidg_bind_config c d i) ∨
            ∃ s, e = Call.usb_add_config_return s) ∧
        ((usb_add_config env (do_config env) w3).1 < 0 →
          hid_bind env w = usb_add_config env (do_config env) w3) ∧
        (0 ≤ (usb_add_config env (do_config env) w3).1 →
          (hid_bind env w).1 = 0 ∧
          (hid_bind env w).2.trace
            = (usb_add_config env (do_config env) w3).2.trace
                ++ [Call.usb_composite_overwrite_options]) ∧
        ((hid_bind env w).1 = 0 ↔ 0 ≤ (usb_add_config env (do_config env) w3).1) ∧
        (hid_bind env w).2.device_desc = w3.device_desc) := by
  have hc : count_funcs w.hidg_func_list 0 = (w.hidg_func_list.length : Int) := by
    rw [count_funcs_eq w.hidg_func_list 0 (le_refl 0) (by omega)]
    simp
  have hn : ¬ ((w.hidg_func_list.length : Int) = 0) := by
    cases hl : w.hidg_func_list with
    | nil => exact absurd hl hne
    | cons e l => simp only [List.length_cons]; omega
  refine ⟨?_, ?_, ?_⟩
  · intro h1
    dsimp only [hid_bind]
    rw [hc, if_neg hn]
    have h1' : (env_call env (Call.ghid_setup w.hidg_func_list.length) w).1 < 0 := h1
    rw [if_pos h1']
    exact ⟨rfl, rfl⟩
  · intro h1 h2
    dsimp only [hid_bind]
    rw [hc, if_neg hn]
    have h1' : ¬ (env_call env (Call.ghid_setup w.hidg_func_list.length) w).1 < 0 :=
      not_lt.mpr h1
    rw [if_neg h1']
    have h2' : (usb_string_ids_tab env
        (env_call env (Call.ghid_setup w.hidg_func_list.length) w).2).1 < 0 := by
      simpa [usb_string_ids_tab, env_call] using h2
    rw [if_pos h2']
    refine ⟨?_, ?_, ?_⟩ <;> simp [usb_string_ids_tab, env_call]
  · intro h1 h2
    have h1' : ¬ (env_call env (Call.ghid_setup w.hidg_func_list.length) w).1 < 0 :=
      not_lt.mpr h1
    have h2' : ¬ (usb_string_ids_tab env
        (env_call env (Call.ghid_setup w.hidg_func_list.length) w).2).1 < 0 := by
      simpa [usb_string_ids_tab, env_call] using h2
    obtain ⟨w3, hw3⟩ : ∃ w3 : World, w3 =
        { (usb_string_ids_tab env
            (env_call env (Call.ghid_setup w.hidg_func_list.length) w).2).2 with
          device_desc :=
            { (usb_string_ids_tab env
                (env_call env (Call.ghid_setup w.hidg_func_list.length) w).2).2.device_desc with
              iManufacturer := string_id_at (usb_string_ids_tab env
                (env_call env (Call.ghid_setup w.hidg_func_list.length) w).2).2.strings_dev
                  USB_GADGET_MANUFACTURER_IDX,
              iProduct := string_id_at (usb_string_ids_tab env
                (env_call env (Call.ghid_setup w.hidg_func_list.length) w).2).2.strings_dev
                  USB_GADGET_PRODUCT_IDX } } := ⟨_, rfl⟩
    have hbind : hid_bind env w =
        if (usb_add_config env (do_config env) w3).1 < 0 then usb_add_config env (do_config env) w3
        else (0, (env_call env Call.usb_composite_overwrite_options
                    (usb_add_config env (do_config env) w3).2).2) := by
      dsimp only [hid_bind]
      rw [hc, if_neg hn, if_neg h1', if_neg h2', hw3]
    obtain ⟨rest, c2, hf1, hf2⟩ := usb_add_config_frame env w3
    have ht3 : w3.trace
        = w.trace ++ [Call.ghid_setup w.hidg_func_list.length, Call.usb_string_ids_tab] := by
      rw [hw3]; simp [usb_string_ids_tab, env_call]
    have hcfg : w3.config_driver = w.config_driver := by
      rw [hw3]; simp [usb_string_ids_tab, env_call]
    refine ⟨w3, ht3, ?_, hcfg, ?_, ?_, ⟨rest, ?_, hf2⟩, ?_, ?_, ?_, ?_⟩
    · rw [hw3]; simp [usb_string_ids_tab, env_call]
    · rw [hw3]; simp [usb_string_ids_tab, env_call]
    · rw [hw3]; simp [usb_string_ids_tab, env_call]
    · rw [hf1]; simp [ht3, hcfg]
    · intro h4
      rw [hbind, if_pos h4]
    · intro h4
      rw [hbind, if_neg (not_lt.mpr h4)]
      simp [env_call]
    · rw [hbind]
      constructor
      · intro h0
        by_contra h4
        rw [if_pos (not_le.mp h4)] at h0
        omega
      · intro h4
        rw [if_neg (not_lt.mpr h4)]
    · rw [hbind]
      split
      · rw [hf1]
      · simp [env_call, hf1]

/-- Witness of C10: keyboard and mouse registered, every call succeeds; the
ids allocated for the manufacturer and product strings (`1` and `2`) end up
in `device_desc`. -/
theorem hid_bind_stage_sequence_witness :
    (world_two_functions ⟨false⟩).hidg_func_list ≠ [] ∧
    (hid_bind env_all_ok (world_two_functions ⟨false⟩)).2.device_desc.iManufacturer = 1 ∧
    (hid_bind env_all_ok (world_two_functions ⟨false⟩)).2.device_desc.iProduct = 2 := by
  obtain ⟨w3, _, _, _, hstr, hdesc, _, _, _, _, hfinal⟩ :=
    (hid_bind_stage_sequence env_all_ok (world_two_functions ⟨false⟩)
      (by decide) (by decide)).2.2 (by decide) (by decide)
  rw [hfinal, hdesc, hstr]
  decide

/-- C4 (start-up rollback in `hidg_init`): whatever the external calls
return, with `evs` the calls made during `hidg_init`:
if `platform_driver_probe` returns `s < 0`, `hidg_init` returns `s`, never
calls `usb_composite_probe` nor `platform_driver_unregister`, and calls
`platform_device_unregister` exactly once, as its last call;
if `platform_driver_probe` succeeds and `usb_composite_probe` returns
`s < 0`, `hidg_init` returns `s` and calls `platform_driver_unregister` and
then `platform_device_unregister`, in that order and each exactly once;
if both succeed, neither unregister call is made and the (non-negative)
status of `usb_composite_probe` is returned. -/
theorem hidg_init_rollback (env : Env) (w : World) :
    ∃ evs, (hidg_init env w).2.trace = w.trace ++ evs ∧
      ((probe_stage env w).1 < 0 →
        (hidg_init env w).1 = (probe_stage env w).1 ∧
        evs.count Call.usb_composite_probe = 0 ∧
        evs.count Call.platform_driver_unregister = 0 ∧
        evs.count Call.platform_device_unregister = 1 ∧
        evs.getLast? = some Call.platform_device_unregister) ∧
      (0 ≤ (probe_stage env w).1 → (composite_stage env w).1 < 0 →
        (hidg_init env w).1 = (composite_stage env w).1 ∧
        evs.count Call.platform_driver_unregister = 1 ∧
        evs.count Call.platform_device_unregister = 1 ∧
        ∃ a b, evs = a ++ Call.platform_driver_unregister ::
          (b ++ [Call.platform_device_unregister])) ∧
      (0 ≤ (probe_stage env w).1 → 0 ≤ (composite_stage env w).1 →
        (hidg_init env w).1 = (composite_stage env w).1 ∧
        0 ≤ (hidg_init env w).1 ∧
        evs.count Call.platform_driver_unregister = 0 ∧
        evs.count Call.platform_device_unregister = 0) := by
  obtain ⟨ks, hks, hks'⟩ := probe_stage_trace env w
  obtain ⟨bs, hbs, hbs'⟩ := composite_stage_trace env w
  obtain ⟨fs, hfs, hfs'⟩ := platform_driver_unregister_trace env (composite_stage env w).2
  have kz : ∀ a : Call, a ≠ Call.kzalloc → ks.count a = 0 :=
    fun a ha => count_zero_of_all_eq a _ ks ha hks'
  have kf : ∀ a : Call, a ≠ Call.kfree → fs.count a = 0 :=
    fun a ha => count_zero_of_all_eq a _ fs ha hfs'
  have kb : ∀ a : Call, a.is_bind_stage = false → bs.count a = 0 :=
    fun a ha => count_zero_of_bind_stage a bs ha hbs'
  rw [hidg_init_cases]
  by_cases h2 : (probe_stage env w).1 < 0
  · rw [if_pos h2]
    refine ⟨Call.platform_device_register :: Call.platform_driver_probe ::
      (ks ++ [Call.platform_driver_probe_return]) ++ [Call.platform_device_unregister],
      ?_, ?_, ?_, ?_⟩
    · simp [env_call, hks]
    · intro _
      refine ⟨rfl, ?_, ?_, ?_, ?_⟩
      · simp [List.count_cons, List.count_append, kz]
      · simp [List.count_cons, List.count_append, kz]
      · simp [List.count_cons, List.count_append, kz]
      · exact List.getLast?_concat _
    · intro h; omega
    · intro h; omega
  · rw [if_neg h2]
    by_cases h4 : (composite_stage env w).1 < 0
    · rw [if_pos h4]
      refine ⟨Call.platform_device_register :: Call.platform_driver_probe ::
        (ks ++ [Call.platform_driver_probe_return]) ++ Call.usb_composite_probe :: bs ++
        Call.platform_driver_unregister :: (fs ++ [Call.platform_device_unregister]),
        ?_, ?_, ?_, ?_⟩
      · simp [env_call, hfs, hbs, hks]
      · intro h; exact absurd h h2
      · intro _ _
        refine ⟨rfl, ?_, ?_, ⟨_, fs, rfl⟩⟩
        · simp [List.count_cons, List.count_append, kz, kf, kb, Call.is_bind_stage]
        · simp [List.count_cons, List.count_append, kz, kf, kb, Call.is_bind_stage]
      · intro _ h; omega
    · rw [if_neg h4]
      refine ⟨Call.platform_device_register :: Call.platform_driver_probe ::
        (ks ++ [Call.platform_driver_probe_return]) ++ Call.usb_composite_probe :: bs,
        ?_, ?_, ?_, ?_⟩
      · simp [hbs, hks]
      · intro h; exact absurd h h2
      · intro _ h; exact absurd h h4
      · intro _ h
        refine ⟨rfl, h, ?_, ?_⟩
        · simp [List.count_cons, List.count_append, kz, kb, Call.is_bind_stage]
        · simp [List.count_cons, List.count_append, kz, kb, Call.is_bind_stage]

/-- C5 (code evaluated at the failing inputs): with the keyboard registered
and `ghid_setup` successful, a failure of `usb_string_ids_tab` (`-12`) or of
`usb_add_config` (`-22`) makes `hid_bind` return that status after having
called `ghid_setup` once and `ghid_cleanup` never; the whole failed start-up
`hidg_init` then returns the error with `ghid_setup` called once and
`ghid_cleanup` not at all.  In general no call of `ghid_cleanup` is ever
made inside `hid_bind`. -/
theorem hid_bind_failure_skips_ghid_cleanup :
    ((hid_bind env_string_ids_fail (world_keyboard ⟨false⟩)).1 = -12 ∧
      (hid_bind env_string_ids_fail (world_keyboard ⟨false⟩)).2.trace
        = [Call.ghid_setup 1, Call.usb_string_ids_tab]) ∧
    ((hid_bind env_add_config_fails (world_keyboard ⟨false⟩)).1 = -22 ∧
      (hid_bind env_add_config_fails (world_keyboard ⟨false⟩)).2.trace
        = [Call.ghid_setup 1, Call.usb_string_ids_tab, Call.usb_add_config config_driver]) ∧
    ((hidg_init env_string_ids_fail (initial_world ⟨false⟩)).1 = -12 ∧
      (hidg_init env_string_ids_fail (initial_world ⟨false⟩)).2.trace.count (Call.ghid_setup 1) = 1 ∧
      (hidg_init env_string_ids_fail (initial_world ⟨false⟩)).2.trace.count Call.ghid_cleanup = 0) ∧
    (∀ (env : Env) (w : World),
      (hid_bind env w).2.trace.count Call.ghid_cleanup = w.trace.count Call.ghid_cleanup) := by
  refine ⟨by decide, by decide, by decide, ?_⟩
  intro env w
  obtain ⟨evs, h1, _, h3⟩ := hid_bind_frame env w
  rw [h1, List.count_append, count_zero_of_bind_stage Call.ghid_cleanup evs rfl h3]
  simp

/-- C6 (code evaluated at the failing input): `hidg_init` discards the status
of `init_my_hid`.  Whatever `platform_device_register` returns, the next call
is `platform_driver_probe`; when the registration of `my_hid` fails with
`-12` and the board provides another device, `hidg_init` goes on through
probe and composite registration and returns `0`. -/
theorem hidg_init_ignores_seed_failure :
    ((init_my_hid env_seed_fails (initial_world ⟨false⟩)).1 = -12 ∧
      (hidg_init env_seed_fails (initial_world ⟨false⟩)).1 = 0 ∧
      (hidg_init env_seed_fails (initial_world ⟨false⟩)).2.trace.count
        Call.platform_driver_probe = 1 ∧
      (hidg_init env_seed_fails (initial_world ⟨false⟩)).2.trace.count
        Call.usb_composite_probe = 1) ∧
    (∀ (env : Env) (w : World), ∃ rest,
      (hidg_init env w).2.trace
        = w.trace ++ Call.platform_device_register :: Call.platform_driver_probe :: rest) := by
  refine ⟨by decide, ?_⟩
  intro env w
  exact hidg_init_first_calls env w

end GHid
